import Mathlib

/-!
Shallow embedding of the core components of the WarrenNou/whatsapp-bot
repository:

* `AdvancedMemoryManager` (src/app.py): a per-owner append-only memory
  ledger stored in a Redis list, with a per-`(owner, type)` secondary id
  index, capped retention (`LTRIM -100 -1` on the ledger, `LTRIM -50 -1`
  on each index), retrieval with an optional type filter and time window,
  and in-place update.
* `ActionHandler` (src/app.py): validation of named actions against a
  required-parameter table with date/time format checks, execution
  tracking records, and dispatch of the five supported actions.
* `FXTrader.calculate_rates` (src/fx_trader.py): anchor fetching with
  source fallback chains, per-pair markup multipliers, a 604.5 floor on
  the XAF/USD and XAF/USDT pairs, and cross-rate triangulation through
  the USD anchors.

Modelling conventions (stated once here):
* All Redis keys touched by these functions are scoped to a single owner
  (`long_term_memory:{phone}`, `memory_by_type:{phone}:{type}`), so the
  store state is modelled per owner.
* `uuid.uuid4()` ids are modelled by a fresh-id counter (`nextId`): the
  only property the code relies on is freshness.
* `datetime.now` timestamps are natural-number time points supplied by
  the caller; `days_back` windows compare in the same unit.
* `json.dumps`/`json.loads` of a payload are modelled by a `ContentCell`
  sum: a cell written by `Save` always round-trips (`ok p` deserializes
  to `p`), while a `corrupt` cell models a stored string that
  `json.loads` rejects (raising, in Python, an exception).
* Python floats are modelled by exact rationals; `round(x, 2)` is
  rounding to a multiple of 1/100 with ties to even, Python's rounding
  rule.
-/

set_option maxRecDepth 100000

namespace WhatsappBot

/-- `l.drop (l.length - n)`: the last `n` elements of `l` (all of `l` when
`n ≥ l.length`).  This is what `LTRIM key -n -1` keeps when `n > 0`. -/
def takeLast (l : List α) (n : Nat) : List α := l.drop (l.length - n)

/-- Redis `LRANGE key -n -1`, as used with `n = limit`: for `n > 0` the
start index `-n` clamps to the head when `n ≥ length`, giving the last
`n` elements; for `n = 0` the start index is `0` (Python `-0 == 0`), so
the whole list is returned. -/
def lrangeLast (l : List α) (n : Nat) : List α :=
  if n = 0 then l else takeLast l n

/-- Result of `json.loads` applied to the serialized `content` field of a
stored memory: a cell written by `save_long_term_memory` (`ok p`) parses
back to `p`; a `corrupt` cell makes `json.loads` raise. -/
inductive ContentCell (α : Type) where
  | ok (p : α)
  | corrupt
  deriving DecidableEq, Repr

/-- `json.loads` on a stored content cell. -/
def deserialize : ContentCell α → Option α
  | .ok p => some p
  | .corrupt => none

/-- One element of the `long_term_memory:{phone}` Redis list: the memory
entry dict built in `save_long_term_memory` (src/app.py). -/
structure MemoryEntry (α : Type) where
  id : Nat
  type : String
  content : ContentCell α
  createdAt : Nat
  updatedAt : Nat
  deriving DecidableEq, Repr

/-- A memory as returned by `retrieve_long_term_memories`: the stored
dict with its `content` field replaced by the parsed payload. -/
structure RetrievedMemory (α : Type) where
  id : Nat
  type : String
  content : α
  createdAt : Nat
  deriving DecidableEq, Repr

/-- The Redis state owned by one (sanitized) phone number:
`long_term_memory:{phone}` and the `memory_by_type:{phone}:{type}`
index lists, plus the fresh-id counter standing in for `uuid.uuid4()`. -/
structure MemoryStore (α : Type) where
  ledger : List (MemoryEntry α)
  index : List (String × List Nat)
  nextId : Nat
  deriving DecidableEq, Repr

def MemoryStore.empty : MemoryStore α := ⟨[], [], 0⟩

/-- `LRANGE memory_by_type:{phone}:{t} 0 -1` content: the id list for
type `t` (empty when the key was never written). -/
def getIndex (s : MemoryStore α) (t : String) : List Nat :=
  match s.index.lookup t with
  | some ids => ids
  | none => []

/-- Replace the id list stored under type `t` (writing the key if absent). -/
def setIndex (ix : List (String × List Nat)) (t : String) (ids : List Nat) :
    List (String × List Nat) :=
  match ix with
  | [] => [(t, ids)]
  | (t', ids') :: rest =>
    if t' = t then (t, ids) :: rest else (t', ids') :: setIndex rest t ids

/-- `AdvancedMemoryManager.MEMORY_TYPES` (src/app.py). -/
def MEMORY_TYPES : List String :=
  ["personal", "reminder", "event", "contact", "preference"]

/-- `AdvancedMemoryManager.save_long_term_memory` (src/app.py): validate
the memory type, append the new entry to the owner's ledger
(`RPUSH` + `LTRIM -100 -1`), and append its id to the per-type index
(`RPUSH` + `LTRIM -50 -1`).  Returns the new store and the new id, or
the `ValueError` message for an invalid type. -/
def save_long_term_memory (s : MemoryStore α) (memoryType : String) (content : α)
    (now : Nat) : Except String (MemoryStore α × Nat) :=
  if memoryType ∈ MEMORY_TYPES then
    let memoryId := s.nextId
    let entry : MemoryEntry α :=
      { id := memoryId, type := memoryType, content := .ok content,
        createdAt := now, updatedAt := now }
    let ledger := takeLast (s.ledger ++ [entry]) 100
    let index := setIndex s.index memoryType
      (takeLast (getIndex s memoryType ++ [memoryId]) 50)
    .ok ({ ledger := ledger, index := index, nextId := memoryId + 1 }, memoryId)
  else
    .error ("Invalid memory type: " ++ memoryType)

/-- The `days_back` filter in `retrieve_long_term_memories`: a record is
skipped when `created_date < now - timedelta(days=days_back)`. -/
def skippedByTimeFilter (createdAt now : Nat) : Option Nat → Bool
  | none => false
  | some daysBack => createdAt < now - daysBack

/-- The retrieval loop of `retrieve_long_term_memories` (typed branch):
scan the full ledger in order, keep entries whose id is in `memoryIds`,
apply the time filter, parse the content (`json.loads` — a corrupt cell
raises, which the enclosing handler converts to `MemoryError`), and stop
once `limit` records are collected (the length test runs after each
append). -/
def collectByIds (entries : List (MemoryEntry α)) (memoryIds : List Nat)
    (limit now : Nat) (daysBack : Option Nat) (acc : List (RetrievedMemory α)) :
    Except String (List (RetrievedMemory α)) :=
  match entries with
  | [] => .ok acc
  | e :: rest =>
    if e.id ∈ memoryIds then
      if skippedByTimeFilter e.createdAt now daysBack then
        collectByIds rest memoryIds limit now daysBack acc
      else
        match deserialize e.content with
        | none => .error "Failed to retrieve memories: content deserialization failed"
        | some p =>
          let acc := acc ++ [⟨e.id, e.type, p, e.createdAt⟩]
          if limit ≤ acc.length then .ok acc
          else collectByIds rest memoryIds limit now daysBack acc
    else collectByIds rest memoryIds limit now daysBack acc

/-- The retrieval loop of the untyped branch: same filtering and parsing
over the last `2 × limit` ledger entries, without the id filter. -/
def collectRecent (entries : List (MemoryEntry α)) (limit now : Nat)
    (daysBack : Option Nat) (acc : List (RetrievedMemory α)) :
    Except String (List (RetrievedMemory α)) :=
  match entries with
  | [] => .ok acc
  | e :: rest =>
    if skippedByTimeFilter e.createdAt now daysBack then
      collectRecent rest limit now daysBack acc
    else
      match deserialize e.content with
      | none => .error "Failed to retrieve memories: content deserialization failed"
      | some p =>
        let acc := acc ++ [⟨e.id, e.type, p, e.createdAt⟩]
        if limit ≤ acc.length then .ok acc
        else collectRecent rest limit now daysBack acc

/-- `AdvancedMemoryManager.retrieve_long_term_memories` (src/app.py).
With a `memoryType`: an invalid type returns `[]`; otherwise the last
`limit` ids are read from the type index (`LRANGE -limit -1`), and the
ledger is scanned for them.  Without one: the last `2 × limit` ledger
entries are scanned.  A corrupt stored content makes the whole call
fail with `MemoryError` (the Python `json.loads` raises inside the
loop and is caught only by the function-level handler). -/
def retrieve_long_term_memories (s : MemoryStore α) (memoryType : Option String)
    (limit : Nat) (now : Nat) (daysBack : Option Nat) :
    Except String (List (RetrievedMemory α)) :=
  match memoryType with
  | some t =>
    if t ∈ MEMORY_TYPES then
      let memoryIds := lrangeLast (getIndex s t) limit
      if memoryIds = [] then .ok []
      else collectByIds s.ledger memoryIds limit now daysBack []
    else .ok []
  | none => collectRecent (lrangeLast s.ledger (2 * limit)) limit now daysBack []

/-- The scan-and-replace loop of `update_memory`: find the first ledger
entry with the given id, replace its content (re-serialized, hence an
`ok` cell) and `updated_at`; `none` when the id is absent. -/
def updateLedger (memoryId : Nat) (newContent : α) (now : Nat) :
    List (MemoryEntry α) → Option (List (MemoryEntry α))
  | [] => none
  | e :: rest =>
    if e.id = memoryId then
      some ({ e with content := .ok newContent, updatedAt := now } :: rest)
    else
      match updateLedger memoryId newContent now rest with
      | some rest' => some (e :: rest')
      | none => none

/-- `AdvancedMemoryManager.update_memory` (src/app.py): linear scan of
the owner's ledger; `LSET` in place on a hit, `false` on a miss. -/
def update_memory (s : MemoryStore α) (memoryId : Nat) (newContent : α)
    (now : Nat) : MemoryStore α × Bool :=
  match updateLedger memoryId newContent now s.ledger with
  | some ledger' => ({ s with ledger := ledger' }, true)
  | none => (s, false)

/-- One `save_long_term_memory` call in a sequence: memory type, payload
and clock reading.  Used to describe states reachable by repeated saves. -/
structure SaveInput (α : Type) where
  type : String
  payload : α
  now : Nat
  deriving DecidableEq, Repr

/-- A failed save (`ValueError`) leaves the store unchanged; a
successful one returns the new store. -/
def saveStep (s : MemoryStore α) (i : SaveInput α) : MemoryStore α :=
  match save_long_term_memory s i.type i.payload i.now with
  | .ok (s', _) => s'
  | .error _ => s

/-- The store after a sequence of `Save` calls starting from `s`. -/
def saveFoldFrom (s : MemoryStore α) (inputs : List (SaveInput α)) : MemoryStore α :=
  inputs.foldl saveStep s

/-- The store an owner reaches by a sequence of `Save` calls from the
empty store. -/
def saveFold (inputs : List (SaveInput α)) : MemoryStore α :=
  saveFoldFrom MemoryStore.empty inputs

/-- The ledger entries a sequence of valid saves would produce with no
retention trimming, ids allocated from `startId`. -/
def unboundedEntries (startId : Nat) : List (SaveInput α) → List (MemoryEntry α)
  | [] => []
  | i :: rest =>
    { id := startId, type := i.type, content := .ok i.payload,
      createdAt := i.now, updatedAt := i.now } :: unboundedEntries (startId + 1) rest

/-- The ids a sequence of valid saves allocates to saves of type `t`,
ids allocated from `startId`. -/
def idsOfType (t : String) (startId : Nat) : List (SaveInput α) → List Nat
  | [] => []
  | i :: rest =>
    if i.type = t then startId :: idsOfType t (startId + 1) rest
    else idsOfType t (startId + 1) rest

/-! ## FXTrader (src/fx_trader.py) -/

/-- Python's `round` (banker's rounding, ties to even) on an exact
rational, as an integer result. -/
def pyRound (q : ℚ) : ℤ :=
  if q - ⌊q⌋ < 1/2 then ⌊q⌋
  else if 1/2 < q - ⌊q⌋ then ⌊q⌋ + 1
  else if ⌊q⌋ % 2 = 0 then ⌊q⌋ else ⌊q⌋ + 1

/-- Python's `round(x, 2)`: round to a multiple of 1/100, ties to even.
Python rounds the nearest binary double; the exact-rational model is the
idealization the spec's formulas are written in. -/
def round2 (q : ℚ) : ℚ := (pyRound (q * 100) : ℚ) / 100

/-- Python's two-argument `max`. -/
def pymax (a b : ℚ) : ℚ := if a < b then b else a

/-- The `self.base_rates` numeric fields filled in by
`FXTrader.calculate_rates` (the `last_updated` timestamp string is
display metadata and not modelled). -/
structure RateSnapshot where
  xaf_usd : ℚ
  xaf_usdt : ℚ
  xaf_aed : ℚ
  xaf_cny : ℚ
  xaf_eur : ℚ
  xof_usd : ℚ
  xof_usdt : ℚ
  xof_aed : ℚ
  xof_cny : ℚ
  xof_eur : ℚ
  deriving DecidableEq, Repr

/-- `FXTrader.calculate_rates` (src/fx_trader.py), as a function of the
five fetched anchor rates (each fetched exactly once at the top of the
call and reused for every pair).  A falsy (`0.0`) anchor hits one of the
`if not ...: return False` guards, modelled as `none`.  Markup
percentages are the `__init__` configuration values: USD 8, USDT 8.5,
AED 8.5, XOF 4, XAF/CNY 9.5, XOF/CNY 5, XAF/EUR 7, XOF/EUR 4; the
XAF/USD and XAF/USDT pairs carry a 604.5 floor applied after rounding. -/
def calculate_rates (usd_xaf aed_usd usd_xof usd_cny usd_eur : ℚ) :
    Option RateSnapshot :=
  if usd_xaf = 0 then none
  else if aed_usd = 0 then none
  else if usd_xof = 0 then none
  else if usd_cny = 0 then none
  else if usd_eur = 0 then none
  else some
    { xaf_usd := pymax (round2 (usd_xaf * (1 + 8/100))) (1209/2)
      xaf_usdt := pymax (round2 (usd_xaf * (1 + (17/2)/100))) (1209/2)
      xaf_aed := round2 (aed_usd * usd_xaf * (1 + (17/2)/100))
      xaf_cny := round2 ((1 / usd_cny) * usd_xaf * (1 + (19/2)/100))
      xaf_eur := round2 ((1 / usd_eur) * usd_xaf * (1 + 7/100))
      xof_usd := round2 (usd_xof * (1 + 4/100))
      xof_usdt := round2 (usd_xof * (1 + 4/100))
      xof_aed := round2 (aed_usd * usd_xof * (1 + 4/100))
      xof_cny := round2 ((1 / usd_cny) * usd_xof * (1 + 5/100))
      xof_eur := round2 ((1 / usd_eur) * usd_xof * (1 + 4/100)) }

/-- The second source of a `get_*_rate` chain: the exchangerate-api
value when the request succeeded and carried the wanted key, else the
hard-coded final fallback constant.  Note the fallback value is returned
unconditionally (no truthiness check), unlike the Yahoo value. -/
def sourceFallback (fallbackValue : Option ℚ) (finalConstant : ℚ) : ℚ :=
  match fallbackValue with
  | some r => r
  | none => finalConstant

/-- The shared shape of `get_usd_xaf_rate`, `get_aed_usd_rate`,
`get_usd_xof_rate`, `get_usd_cny_rate`, `get_usd_eur_rate`
(src/fx_trader.py): try Yahoo Finance (`if rate:` — a `0.0` is falsy
and falls through), then the fallback API, then a static constant. -/
def fetchAnchor (yahoo fallbackValue : Option ℚ) (finalConstant : ℚ) : ℚ :=
  match yahoo with
  | some r => if r = 0 then sourceFallback fallbackValue finalConstant else r
  | none => sourceFallback fallbackValue finalConstant

def get_usd_xaf_rate (yahoo fallbackValue : Option ℚ) : ℚ :=
  fetchAnchor yahoo fallbackValue 558

def get_aed_usd_rate (yahoo fallbackValue : Option ℚ) : ℚ :=
  fetchAnchor yahoo fallbackValue (34/125)

def get_usd_xof_rate (yahoo fallbackValue : Option ℚ) : ℚ :=
  fetchAnchor yahoo fallbackValue 558

def get_usd_cny_rate (yahoo fallbackValue : Option ℚ) : ℚ :=
  fetchAnchor yahoo fallbackValue (357/50)

def get_usd_eur_rate (yahoo fallbackValue : Option ℚ) : ℚ :=
  fetchAnchor yahoo fallbackValue (429/500)

/-- One remote-source outcome per anchor fetch: the Yahoo Finance value
(`none` = request failed / no price) and the exchangerate-api value
(`none` = request failed or key absent). -/
structure RateSources where
  usdXafYahoo : Option ℚ
  usdXafFallback : Option ℚ
  aedUsdYahoo : Option ℚ
  aedUsdFallback : Option ℚ
  usdXofYahoo : Option ℚ
  usdXofFallback : Option ℚ
  usdCnyYahoo : Option ℚ
  usdCnyFallback : Option ℚ
  usdEurYahoo : Option ℚ
  usdEurFallback : Option ℚ
  deriving DecidableEq, Repr

/-- Every remote source for every anchor pair failed. -/
def RateSources.allFailed (src : RateSources) : Prop :=
  src = ⟨none, none, none, none, none, none, none, none, none, none⟩

/-- `calculate_rates` composed with its five anchor fetchers, exactly as
the top of the Python `calculate_rates` body performs them. -/
def calculate_rates_from_sources (src : RateSources) : Option RateSnapshot :=
  calculate_rates
    (get_usd_xaf_rate src.usdXafYahoo src.usdXafFallback)
    (get_aed_usd_rate src.aedUsdYahoo src.aedUsdFallback)
    (get_usd_xof_rate src.usdXofYahoo src.usdXofFallback)
    (get_usd_cny_rate src.usdCnyYahoo src.usdCnyFallback)
    (get_usd_eur_rate src.usdEurYahoo src.usdEurFallback)

/-- All ten published pair rates of a snapshot are strictly positive. -/
def RateSnapshot.allPositive (s : RateSnapshot) : Prop :=
  0 < s.xaf_usd ∧ 0 < s.xaf_usdt ∧ 0 < s.xaf_aed ∧ 0 < s.xaf_cny ∧
  0 < s.xaf_eur ∧ 0 < s.xof_usd ∧ 0 < s.xof_usdt ∧ 0 < s.xof_aed ∧
  0 < s.xof_cny ∧ 0 < s.xof_eur

/-! ## ActionHandler (src/app.py) -/

/-- The payloads `execute_action` persists through
`save_long_term_memory`: the reminder/event/preference dicts and the
`{'type': ..., 'data': ...}` wrappers for sent messages and goals. -/
inductive Payload where
  | reminder (message date time priority : String)
  | sentMessage (recipient message : String) (sid : Nat)
  | event (title date time duration description location : String)
  | preference (name value category : String)
  | goal (description targetDate priority category milestones : String)
  deriving DecidableEq, Repr

/-- `ActionHandler.ACTIONS` (src/app.py): required and optional
parameter names per action. -/
def ACTIONS : List (String × (List String × List String)) :=
  [("create_reminder", (["message", "date"], ["time", "priority"])),
   ("send_message", (["recipient", "message"], ["template_name"])),
   ("schedule_event", (["title", "date", "time"], ["duration", "description", "location"])),
   ("update_preference", (["preference_name", "preference_value"], ["category"])),
   ("set_goal", (["goal_description", "target_date"], ["milestones", "priority", "category"]))]

def isLeapYear (y : Nat) : Bool :=
  (y % 4 == 0 && y % 100 != 0) || y % 400 == 0

def daysInMonth (y m : Nat) : Nat :=
  if m = 2 then (if isLeapYear y then 29 else 28)
  else if m = 4 ∨ m = 6 ∨ m = 9 ∨ m = 11 then 30
  else 31

/-- Split a character list at every occurrence of `sep`.  The
`strptime` formats used here join their field regexes with the literal
separators `-` and `:` and reject any unconverted trailing data, which
for digit-only fields is exactly a split at the separator character
with every segment fully consumed by its field regex. -/
def splitOnChar (sep : Char) : List Char → List (List Char)
  | [] => [[]]
  | c :: rest =>
    if c = sep then [] :: splitOnChar sep rest
    else
      match splitOnChar sep rest with
      | h :: t => (c :: h) :: t
      | [] => [[c]]

def digitVal (c : Char) : Nat := c.toNat - 48

def digitsVal (cs : List Char) : Nat :=
  cs.foldl (fun acc c => acc * 10 + digitVal c) 0

/-- CPython `_strptime` year directive `%Y`: regex `\d\d\d\d`, exactly
four digits. -/
def parseYearField (cs : List Char) : Option Nat :=
  match cs with
  | [c1, c2, c3, c4] =>
    if c1.isDigit ∧ c2.isDigit ∧ c3.isDigit ∧ c4.isDigit then
      some (digitsVal [c1, c2, c3, c4])
    else none
  | _ => none

/-- CPython month directive `%m`: regex `1[0-2]|0[1-9]|[1-9]`. -/
def parseMonthField (cs : List Char) : Option Nat :=
  match cs with
  | [c] => if '1' ≤ c ∧ c ≤ '9' then some (digitVal c) else none
  | [c1, c2] =>
    if c1 = '1' ∧ '0' ≤ c2 ∧ c2 ≤ '2' then some (10 + digitVal c2)
    else if c1 = '0' ∧ '1' ≤ c2 ∧ c2 ≤ '9' then some (digitVal c2)
    else none
  | _ => none

/-- CPython day directive `%d`: regex `3[01]|[12]\d|0[1-9]|[1-9]| [1-9]`
— one or two digits, or one space followed by a nonzero digit
(space-padded day). -/
def parseDayField (cs : List Char) : Option Nat :=
  match cs with
  | [c] => if '1' ≤ c ∧ c ≤ '9' then some (digitVal c) else none
  | [' ', c] => if '1' ≤ c ∧ c ≤ '9' then some (digitVal c) else none
  | [c1, c2] =>
    if c1 = '3' ∧ '0' ≤ c2 ∧ c2 ≤ '1' then some (30 + digitVal c2)
    else if '1' ≤ c1 ∧ c1 ≤ '2' ∧ c2.isDigit then
      some (digitVal c1 * 10 + digitVal c2)
    else if c1 = '0' ∧ '1' ≤ c2 ∧ c2 ≤ '9' then some (digitVal c2)
    else none
  | _ => none

/-- CPython hour directive `%H`: regex `2[0-3]|[0-1]\d|\d`. -/
def parseHourField (cs : List Char) : Option Nat :=
  match cs with
  | [c] => if c.isDigit then some (digitVal c) else none
  | [c1, c2] =>
    if c1 = '2' ∧ '0' ≤ c2 ∧ c2 ≤ '3' then some (20 + digitVal c2)
    else if '0' ≤ c1 ∧ c1 ≤ '1' ∧ c2.isDigit then
      some (digitVal c1 * 10 + digitVal c2)
    else none
  | _ => none

/-- CPython minute directive `%M`: regex `[0-5]\d|\d`. -/
def parseMinuteField (cs : List Char) : Option Nat :=
  match cs with
  | [c] => if c.isDigit then some (digitVal c) else none
  | [c1, c2] =>
    if '0' ≤ c1 ∧ c1 ≤ '5' ∧ c2.isDigit then
      some (digitVal c1 * 10 + digitVal c2)
    else none
  | _ => none

/-- `datetime.strptime(s, '%Y-%m-%d')` succeeding: the three field
regexes joined by literal `-` must consume the whole string (otherwise
"unconverted data remains"), and the parsed numbers must build a
`datetime`: year ≥ 1 (`datetime.MINYEAR`) and a calendar-valid day for
the month, leap years included. -/
def validDateYMD (s : String) : Bool :=
  match splitOnChar '-' s.data with
  | [ys, ms, ds] =>
    match parseYearField ys, parseMonthField ms, parseDayField ds with
    | some y, some m, some d => decide (1 ≤ y) && decide (d ≤ daysInMonth y m)
    | _, _, _ => false
  | _ => false

/-- `datetime.strptime(s, '%H:%M')` succeeding: the hour and minute
regexes joined by a literal `:`, the whole string consumed. -/
def validTimeHM (s : String) : Bool :=
  match splitOnChar ':' s.data with
  | [hs, ms] => (parseHourField hs).isSome && (parseMinuteField ms).isSome
  | _ => false

/-- The `time` format check at the end of `validate_action`. -/
def timeFormatCheck (params : List (String × String)) : Option String :=
  match params.lookup "time" with
  | some t =>
    if validTimeHM t then none
    else some "Invalid time format for 'time'. Use 24-hour HH:MM format."
  | none => none

/-- `ActionHandler.validate_action` (src/app.py).  `none` means
`{'valid': True}`; `some err` is the `error` field of the
`{'valid': False, 'error': ...}` dict. -/
def validate_action (actionName : String) (params : List (String × String)) :
    Option String :=
  match ACTIONS.lookup actionName with
  | none => some ("Unknown action: " ++ actionName)
  | some (required, _) =>
    let missing := required.filter fun p => (params.lookup p).isNone
    if missing.isEmpty then
      match params.lookup "date" with
      | some d =>
        if validDateYMD d then timeFormatCheck params
        else some "Invalid date format for 'date'. Use YYYY-MM-DD format."
      | none => timeFormatCheck params
    else some ("Missing required parameters: " ++ String.intercalate ", " missing)

/-- The result dict returned by `execute_action` to its caller, with one
optional slot per key the Python code may put in it (a key absent from
the dict is `none`). -/
structure ResultDict where
  valid : Option Bool := none
  success : Option Bool := none
  error : Option String := none
  message : Option String := none
  memory_id : Option Nat := none
  sid : Option Nat := none
  deriving DecidableEq, Repr

/-- The `action:{action_id}` tracking record written by
`execute_action` (the `params` echo and the result payload are not
needed by any claim and are omitted). -/
structure ActionTracking where
  id : Nat
  phone : String
  actionName : String
  status : String
  error : Option String := none
  createdAt : Nat
  completedAt : Option Nat := none
  deriving DecidableEq, Repr

/-- Redis `SET action:{id} ...`: overwrite the entry for `k`, or append
it if absent. -/
def setAction (l : List (Nat × ActionTracking)) (k : Nat) (v : ActionTracking) :
    List (Nat × ActionTracking) :=
  match l with
  | [] => [(k, v)]
  | (k', v') :: rest =>
    if k' = k then (k, v) :: rest else (k', v') :: setAction rest k v

/-- The mutable state `execute_action` touches: the owner's memory
store, the `action:{id}` tracking keys, the Twilio messages sent so far
(recipient, body, sid), and the fresh-id counter standing in for
`uuid.uuid4()` on action ids. -/
structure World where
  store : MemoryStore Payload
  actions : List (Nat × ActionTracking)
  sent : List (String × String × Nat)
  nextActionId : Nat
  deriving DecidableEq, Repr

/-- Python `str.strip()` with no argument: whitespace removed from both
ends.  (Implemented on the character list so that proofs can evaluate
it; Lean's own `String.trim` is built on non-reducing `Substring`
primitives.) -/
def pyStrip (s : String) : String :=
  ⟨List.reverse (List.dropWhile Char.isWhitespace
    (List.reverse (List.dropWhile Char.isWhitespace s.data)))⟩

/-- ASCII lowering of one character, as Python `str.lower()` does on the
ASCII range the stored names use. -/
def charLower (c : Char) : Char :=
  if 65 ≤ c.toNat ∧ c.toNat ≤ 90 then Char.ofNat (c.toNat + 32) else c

/-- Python `str.lower()`. -/
def pyLower (s : String) : String := ⟨s.data.map charLower⟩

/-- Required parameter access (`params['k']`): total here because
`validate_action` has already established presence on every path that
uses it. -/
def getP (params : List (String × String)) (k : String) : String :=
  (params.lookup k).getD ""

/-- The `update_preference` search loop: first retrieved memory whose
content is a preference with the wanted `(name, category)`.  A content
dict without those keys raises `KeyError` in Python (caught only by the
outermost `except Exception`), modelled as `.error ()`. -/
def findMatchingPreference (mems : List (RetrievedMemory Payload))
    (name category : String) : Except Unit (Option Nat) :=
  match mems with
  | [] => .ok none
  | m :: rest =>
    match m.content with
    | .preference n _ c =>
      if n = name ∧ c = category then .ok (some m.id)
      else findMatchingPreference rest name category
    | _ => .error ()

/-- Terminal update of the tracking record plus the success result. -/
def finishOk (w : World) (track : ActionTracking) (now : Nat) (res : ResultDict) :
    World × ResultDict :=
  let t := { track with status := "completed", completedAt := some now }
  ({ w with actions := setAction w.actions t.id t }, res)

/-- Terminal update of the tracking record plus the
`{'success': False, 'error': ...}` result of the exception handlers. -/
def finishFail (w : World) (track : ActionTracking) (now : Nat) (err : String) :
    World × ResultDict :=
  let t := { track with status := "failed", error := some err, completedAt := some now }
  ({ w with actions := setAction w.actions t.id t },
   { success := some false, error := some err })

/-- `ActionHandler.execute_action` (src/app.py): write a `pending`
tracking record, validate (a failure updates the record to `failed` and
returns the validation dict unchanged), then dispatch by action name.
`gateway` is the outcome of the Twilio `messages.create` call (`.ok
sid` or the `TwilioRestException` message), supplied as the
environment's behaviour for this call. -/
def execute_action (w : World) (phone actionName : String)
    (params : List (String × String)) (now : Nat) (gateway : Except String Nat) :
    World × ResultDict :=
  let actionId := w.nextActionId
  let track : ActionTracking :=
    { id := actionId, phone := phone, actionName := actionName,
      status := "pending", createdAt := now }
  let w := { w with actions := setAction w.actions actionId track,
                    nextActionId := actionId + 1 }
  match validate_action actionName params with
  | some err =>
    let t := { track with status := "failed", error := some err, completedAt := some now }
    ({ w with actions := setAction w.actions actionId t },
     { valid := some false, error := some err })
  | none =>
    if actionName = "create_reminder" then
      let reminder : Payload :=
        .reminder (pyStrip (getP params "message")) (getP params "date")
          ((params.lookup "time").getD "09:00")
          ((params.lookup "priority").getD "normal")
      match save_long_term_memory w.store "reminder" reminder now with
      | .ok (s', mid) =>
        finishOk { w with store := s' } track now
          { success := some true,
            message := some ("Reminder created: " ++ getP params "message"),
            memory_id := some mid }
      | .error e => finishFail w track now ("Failed to save reminder: " ++ e)
    else if actionName = "send_message" then
      let r0 := getP params "recipient"
      let recipient := if r0.startsWith "whatsapp:" then r0 else "whatsapp:" ++ r0
      let body := pyStrip (getP params "message")
      match gateway with
      | .error msg => finishFail w track now ("Twilio error: " ++ msg)
      | .ok sid =>
        let w := { w with sent := w.sent ++ [(recipient, body, sid)] }
        match save_long_term_memory w.store "contact"
            (.sentMessage recipient body sid) now with
        | .ok (s', _) =>
          finishOk { w with store := s' } track now
            { success := some true,
              message := some ("Message sent to " ++ recipient),
              sid := some sid }
        | .error e => finishFail w track now ("Unexpected error: " ++ e)
    else if actionName = "schedule_event" then
      let event : Payload :=
        .event (pyStrip (getP params "title")) (getP params "date") (getP params "time")
          ((params.lookup "duration").getD "60")
          ((params.lookup "description").getD "")
          ((params.lookup "location").getD "")
      match save_long_term_memory w.store "event" event now with
      | .ok (s', mid) =>
        finishOk { w with store := s' } track now
          { success := some true,
            message := some ("Event scheduled: " ++ getP params "title"),
            memory_id := some mid }
      | .error e => finishFail w track now ("Failed to save event: " ++ e)
    else if actionName = "update_preference" then
      let prefName := pyLower (pyStrip (getP params "preference_name"))
      let prefValue := getP params "preference_value"
      let category := (params.lookup "category").getD "general"
      let preference : Payload := .preference prefName prefValue category
      match retrieve_long_term_memories w.store (some "preference") 10 now none with
      | .error e => finishFail w track now ("Failed to save preference: " ++ e)
      | .ok mems =>
        match findMatchingPreference mems prefName category with
        | .error _ => finishFail w track now "Unexpected error: KeyError"
        | .ok (some mid) =>
          let s' := (update_memory w.store mid preference now).1
          finishOk { w with store := s' } track now
            { success := some true,
              message := some ("Preference updated: " ++ getP params "preference_name"),
              memory_id := some mid }
        | .ok none =>
          match save_long_term_memory w.store "preference" preference now with
          | .ok (s', mid) =>
            finishOk { w with store := s' } track now
              { success := some true,
                message := some ("Preference updated: " ++ getP params "preference_name"),
                memory_id := some mid }
          | .error e => finishFail w track now ("Failed to save preference: " ++ e)
    else if actionName = "set_goal" then
      let goal : Payload :=
        .goal (pyStrip (getP params "goal_description")) (getP params "target_date")
          ((params.lookup "priority").getD "medium")
          ((params.lookup "category").getD "personal")
          ((params.lookup "milestones").getD "")
      match save_long_term_memory w.store "personal" goal now with
      | .ok (s', mid) =>
        finishOk { w with store := s' } track now
          { success := some true,
            message := some ("Goal set: " ++ getP params "goal_description"),
            memory_id := some mid }
      | .error e => finishFail w track now ("Failed to save goal: " ++ e)
    else
      finishFail w track now ("Unhandled action: " ++ actionName)

/-! ## Concrete states used by witnesses and counterexamples -/

/-- 101 valid saves for one owner: one `personal` record followed by 100
`reminder` records. -/
def evictionInputs : List (SaveInput Nat) :=
  ⟨"personal", 0, 0⟩ :: List.replicate 100 ⟨"reminder", 1, 0⟩

/-- A store holding a record whose serialized content no longer parses
(external corruption of the Redis value), followed by a well-formed
record of the same type, both present in the type index. -/
def corruptStore : MemoryStore Nat :=
  { ledger := [⟨0, "personal", .corrupt, 0, 0⟩, ⟨1, "personal", .ok 7, 0, 0⟩],
    index := [("personal", [0, 1])],
    nextId := 2 }

/-- A store holding one well-formed `personal` record. -/
def cleanStore : MemoryStore Nat :=
  { ledger := [⟨0, "personal", .ok 7, 0, 0⟩],
    index := [("personal", [0])],
    nextId := 1 }

/-- Every remote rate source down. -/
def sourcesAllFailed : RateSources :=
  ⟨none, none, none, none, none, none, none, none, none, none⟩

/-- An empty world for `execute_action` runs. -/
def emptyWorld : World := ⟨MemoryStore.empty, [], [], 0⟩

/-- Eleven stored preferences: the oldest is `("a", "general")`, then
ten named `("b", "general")`, so the `("a", "general")` preference falls
outside the 10-record lookback `update_preference` uses. -/
def elevenPrefInputs : List (SaveInput Payload) :=
  ⟨"preference", .preference "a" "v" "general", 0⟩ ::
    List.replicate 10 ⟨"preference", .preference "b" "v" "general", 0⟩

def elevenPrefWorld : World := ⟨saveFold elevenPrefInputs, [], [], 0⟩

/-- A world holding a single stored preference `("a", "general")`. -/
def onePrefWorld : World :=
  ⟨saveFold [⟨"preference", .preference "a" "v" "general", 0⟩], [], [], 0⟩

/-- The world after asking `update_preference` to set `("a", "general")`
in `elevenPrefWorld`. -/
def elevenPrefWorldAfter : World :=
  (execute_action elevenPrefWorld "user" "update_preference"
    [("preference_name", "a"), ("preference_value", "x")] 1 (.ok 0)).1

/-- Stored preference records with the given normalized
`(name, category)` pair. -/
def countPref (l : List (MemoryEntry Payload)) (name category : String) : Nat :=
  (l.filter fun e =>
    match e.content with
    | .ok (.preference n _ c) => n == name && c == category
    | _ => false).length

/-! ## Lemmas about `takeLast` -/

theorem takeLast_length (l : List α) (n : Nat) :
    (takeLast l n).length = min l.length n := by
  simp only [takeLast, List.length_drop]
  omega

theorem takeLast_length_le (l : List α) (n : Nat) : (takeLast l n).length ≤ n := by
  rw [takeLast_length]; omega

theorem takeLast_of_le (l : List α) {n : Nat} (h : l.length ≤ n) :
    takeLast l n = l := by
  simp [takeLast, Nat.sub_eq_zero_of_le h]

theorem takeLast_subset (l : List α) (n : Nat) : takeLast l n ⊆ l :=
  List.drop_subset _ l

theorem takeLast_append_takeLast (l m : List α) (n : Nat) :
    takeLast (takeLast l n ++ m) n = takeLast (l ++ m) n := by
  rcases Nat.le_total l.length n with h | h
  · rw [takeLast_of_le l h]
  · unfold takeLast
    rw [List.drop_append_eq_append_drop, List.drop_append_eq_append_drop,
        List.drop_drop]
    have h1 : (l.drop (l.length - n)).length = n := by
      simp only [List.length_drop]; omega
    congr 1
    · congr 1
      simp only [List.length_append, List.length_drop]
      omega
    · congr 1
      simp only [List.length_append, List.length_drop]
      omega

theorem takeLast_takeLast (l : List α) (n m : Nat) :
    takeLast (takeLast l n) m = takeLast l (min n m) := by
  unfold takeLast
  rw [List.drop_drop]
  congr 1
  simp only [List.length_drop]
  omega

theorem takeLast_concat_one (l : List α) (a : α) : takeLast (l ++ [a]) 1 = [a] := by
  unfold takeLast
  have h : (l ++ [a]).length - 1 = l.length := by simp
  rw [h, List.drop_left]

theorem lrangeLast_subset (l : List α) (n : Nat) : lrangeLast l n ⊆ l := by
  unfold lrangeLast
  split
  · exact fun _ h => h
  · exact takeLast_subset l n

/-! ## Lemmas about the index association list -/

theorem lookup_setIndex_self (ix : List (String × List Nat)) (t : String)
    (ids : List Nat) : (setIndex ix t ids).lookup t = some ids := by
  induction ix with
  | nil => simp [setIndex, List.lookup]
  | cons p rest ih =>
    obtain ⟨t', ids'⟩ := p
    by_cases h : t' = t
    · simp [setIndex, h, List.lookup]
    · simp only [setIndex, if_neg h, List.lookup]
      have : (t == t') = false := by
        simp [beq_eq_false_iff_ne]
        exact fun hc => h hc.symm
      rw [this]
      exact ih

theorem lookup_setIndex_other (ix : List (String × List Nat)) (t t'' : String)
    (ids : List Nat) (h : t'' ≠ t) :
    (setIndex ix t ids).lookup t'' = ix.lookup t'' := by
  induction ix with
  | nil =>
    simp only [setIndex, List.lookup]
    have : (t'' == t) = false := by simpa [beq_eq_false_iff_ne] using h
    rw [this]
  | cons p rest ih =>
    obtain ⟨t', ids'⟩ := p
    by_cases h' : t' = t
    · subst h'
      simp only [setIndex, if_pos rfl, List.lookup]
      have : (t'' == t') = false := by simpa [beq_eq_false_iff_ne] using h
      rw [this]
    · simp only [setIndex, if_neg h', List.lookup]
      cases hbe : t'' == t'
      · exact ih
      · rfl

theorem getIndex_empty (t : String) : getIndex (MemoryStore.empty (α := α)) t = [] := by
  simp [getIndex, MemoryStore.empty, List.lookup]

/-! ## Characterization of states reached by sequences of `Save` calls -/

theorem length_unboundedEntries (startId : Nat) (inputs : List (SaveInput α)) :
    (unboundedEntries startId inputs).length = inputs.length := by
  induction inputs generalizing startId with
  | nil => rfl
  | cons i rest ih => simp [unboundedEntries, ih]

theorem saveStep_valid (s : MemoryStore α) (i : SaveInput α)
    (hi : i.type ∈ MEMORY_TYPES) :
    saveStep s i =
      { ledger := takeLast (s.ledger ++
          [{ id := s.nextId, type := i.type, content := .ok i.payload,
             createdAt := i.now, updatedAt := i.now }]) 100,
        index := setIndex s.index i.type
          (takeLast (getIndex s i.type ++ [s.nextId]) 50),
        nextId := s.nextId + 1 } := by
  simp [saveStep, save_long_term_memory, hi]

theorem saveFoldFrom_cons (s : MemoryStore α) (i : SaveInput α)
    (rest : List (SaveInput α)) :
    saveFoldFrom s (i :: rest) = saveFoldFrom (saveStep s i) rest := rfl

theorem saveFoldFrom_nextId (inputs : List (SaveInput α)) (s : MemoryStore α)
    (h : ∀ i ∈ inputs, i.type ∈ MEMORY_TYPES) :
    (saveFoldFrom s inputs).nextId = s.nextId + inputs.length := by
  induction inputs generalizing s with
  | nil => simp [saveFoldFrom]
  | cons i rest ih =>
    have hi : i.type ∈ MEMORY_TYPES := h i (by simp)
    have hr : ∀ j ∈ rest, j.type ∈ MEMORY_TYPES := fun j hj => h j (by simp [hj])
    rw [saveFoldFrom_cons, ih _ hr, saveStep_valid s i hi]
    simp
    omega

theorem saveFoldFrom_ledger (inputs : List (SaveInput α)) (s : MemoryStore α)
    (h : ∀ i ∈ inputs, i.type ∈ MEMORY_TYPES) (hlen : s.ledger.length ≤ 100) :
    (saveFoldFrom s inputs).ledger =
      takeLast (s.ledger ++ unboundedEntries s.nextId inputs) 100 := by
  induction inputs generalizing s with
  | nil =>
    simp only [saveFoldFrom, List.foldl_nil, unboundedEntries, List.append_nil]
    exact (takeLast_of_le _ hlen).symm
  | cons i rest ih =>
    have hi : i.type ∈ MEMORY_TYPES := h i (by simp)
    have hr : ∀ j ∈ rest, j.type ∈ MEMORY_TYPES := fun j hj => h j (by simp [hj])
    rw [saveFoldFrom_cons, saveStep_valid s i hi]
    rw [ih _ hr (by exact takeLast_length_le _ _)]
    simp only [unboundedEntries]
    rw [takeLast_append_takeLast]
    congr 1
    simp

theorem saveFoldFrom_index (inputs : List (SaveInput α)) (s : MemoryStore α)
    (t : String) (h : ∀ i ∈ inputs, i.type ∈ MEMORY_TYPES)
    (hlen : (getIndex s t).length ≤ 50) :
    getIndex (saveFoldFrom s inputs) t =
      takeLast (getIndex s t ++ idsOfType t s.nextId inputs) 50 := by
  induction inputs generalizing s with
  | nil =>
    simp only [saveFoldFrom, List.foldl_nil, idsOfType, List.append_nil]
    exact (takeLast_of_le _ hlen).symm
  | cons i rest ih =>
    have hi : i.type ∈ MEMORY_TYPES := h i (by simp)
    have hr : ∀ j ∈ rest, j.type ∈ MEMORY_TYPES := fun j hj => h j (by simp [hj])
    rw [saveFoldFrom_cons, saveStep_valid s i hi]
    by_cases ht : i.type = t
    · subst ht
      have hget : getIndex
          { ledger := takeLast (s.ledger ++
              [{ id := s.nextId, type := i.type, content := .ok i.payload,
                 createdAt := i.now, updatedAt := i.now }]) 100,
            index := setIndex s.index i.type
              (takeLast (getIndex s i.type ++ [s.nextId]) 50),
            nextId := s.nextId + 1 } i.type =
          takeLast (getIndex s i.type ++ [s.nextId]) 50 := by
        simp [getIndex, lookup_setIndex_self]
      rw [ih _ hr (by rw [hget]; exact takeLast_length_le _ _)]
      rw [hget]
      rw [takeLast_append_takeLast]
      simp only [idsOfType, if_pos rfl]
      congr 1
      simp
    · have hget : getIndex
          { ledger := takeLast (s.ledger ++
              [{ id := s.nextId, type := i.type, content := .ok i.payload,
                 createdAt := i.now, updatedAt := i.now }]) 100,
            index := setIndex s.index i.type
              (takeLast (getIndex s i.type ++ [s.nextId]) 50),
            nextId := s.nextId + 1 } t = getIndex s t := by
        simp [getIndex, lookup_setIndex_other _ _ _ _ (fun hc => ht hc.symm)]
      rw [ih _ hr (by rw [hget]; exact hlen)]
      rw [hget]
      simp only [idsOfType, if_neg ht]

theorem mem_idsOfType_exists_entry (t : String) (startId : Nat)
    (inputs : List (SaveInput α)) (id : Nat)
    (hmem : id ∈ idsOfType t startId inputs) :
    ∃ e ∈ unboundedEntries startId inputs, e.id = id ∧ e.type = t := by
  induction inputs generalizing startId with
  | nil => simp [idsOfType] at hmem
  | cons i rest ih =>
    simp only [idsOfType] at hmem
    by_cases ht : i.type = t
    · rw [if_pos ht] at hmem
      rcases List.mem_cons.mp hmem with h0 | h1
      · refine ⟨{ id := startId, type := i.type, content := .ok i.payload,
                  createdAt := i.now, updatedAt := i.now },
          by simp [unboundedEntries], h0.symm, ht⟩
      · obtain ⟨e, he, hid, htt⟩ := ih (startId + 1) h1
        exact ⟨e, by simp [unboundedEntries, he], hid, htt⟩
    · rw [if_neg ht] at hmem
      obtain ⟨e, he, hid, htt⟩ := ih (startId + 1) hmem
      exact ⟨e, by simp [unboundedEntries, he], hid, htt⟩

theorem saveFold_ledger (inputs : List (SaveInput α))
    (h : ∀ i ∈ inputs, i.type ∈ MEMORY_TYPES) :
    (saveFold inputs).ledger = takeLast (unboundedEntries 0 inputs) 100 := by
  have := saveFoldFrom_ledger inputs MemoryStore.empty h (by simp [MemoryStore.empty])
  simpa [saveFold, MemoryStore.empty] using this

theorem saveFold_index (inputs : List (SaveInput α)) (t : String)
    (h : ∀ i ∈ inputs, i.type ∈ MEMORY_TYPES) :
    getIndex (saveFold inputs) t = takeLast (idsOfType t 0 inputs) 50 := by
  have := saveFoldFrom_index inputs MemoryStore.empty t h
    (by rw [getIndex_empty]; simp)
  simpa [saveFold, MemoryStore.empty, getIndex_empty] using this

/-- C1: after every sequence of valid `Save` calls for one owner, the
ledger holds at most 100 records and every `(owner, type)` index at most
50 ids; once more than 100 saves have happened, the ledger holds exactly
the 100 most recent records, the oldest ones having been evicted
(FIFO). -/
theorem memoryRetentionCaps (inputs : List (SaveInput α))
    (h : ∀ i ∈ inputs, i.type ∈ MEMORY_TYPES) :
    ((saveFold inputs).ledger.length ≤ 100 ∧
      ∀ t, (getIndex (saveFold inputs) t).length ≤ 50) ∧
    (100 < inputs.length →
      (saveFold inputs).ledger.length = 100 ∧
      (saveFold inputs).ledger = takeLast (unboundedEntries 0 inputs) 100) := by
  have hledger := saveFold_ledger inputs h
  refine ⟨⟨?_, ?_⟩, ?_⟩
  · rw [hledger]; exact takeLast_length_le _ _
  · intro t
    rw [saveFold_index inputs t h]
    exact takeLast_length_le _ _
  · intro hgt
    refine ⟨?_, hledger⟩
    rw [hledger, takeLast_length, length_unboundedEntries]
    omega

/-- Witness for C1 at 101 concrete saves of one owner. -/
theorem memoryRetentionCaps_witness :
    (saveFold evictionInputs).ledger.length = 100 ∧
    (saveFold evictionInputs).ledger = takeLast (unboundedEntries 0 evictionInputs) 100 :=
  (memoryRetentionCaps evictionInputs
    (by
      intro i hi
      simp only [evictionInputs, List.mem_cons, List.mem_replicate] at hi
      rcases hi with h0 | ⟨-, h1⟩
      · rw [h0]; decide
      · rw [h1]; decide)).2
    (by decide)

/-- C4 (amended): as long as an owner's ledger has not yet evicted
anything — at most 100 saves total — every id in every `(owner, type)`
index dereferences to a record of that type physically present in the
ledger.  (Beyond 100 saves, saves of other types can evict a record
whose id the 50-deep type index still holds; see the counterexample.) -/
theorem indexDereferencesWithinCap (inputs : List (SaveInput α))
    (h : ∀ i ∈ inputs, i.type ∈ MEMORY_TYPES) (hlen : inputs.length ≤ 100) :
    ∀ t, ∀ id ∈ getIndex (saveFold inputs) t,
      ∃ e ∈ (saveFold inputs).ledger, e.id = id ∧ e.type = t := by
  intro t id hid
  rw [saveFold_index inputs t h] at hid
  have hid' : id ∈ idsOfType t 0 inputs := takeLast_subset _ _ hid
  obtain ⟨e, he, heid, het⟩ := mem_idsOfType_exists_entry t 0 inputs id hid'
  refine ⟨e, ?_, heid, het⟩
  rw [saveFold_ledger inputs h, takeLast_of_le]
  · exact he
  · rw [length_unboundedEntries]; exact hlen

/-- Witness for the amended C4: 100 saves, every indexed id still
dereferences. -/
theorem indexDereferencesWithinCap_witness :
    ∃ e ∈ (saveFold (List.replicate 100 (⟨"personal", 5, 0⟩ : SaveInput Nat))).ledger,
      e.id = 99 ∧ e.type = "personal" :=
  indexDereferencesWithinCap (List.replicate 100 ⟨"personal", 5, 0⟩)
    (by
      intro i hi
      simp only [List.mem_replicate] at hi
      rw [hi.2]; decide)
    (by decide) "personal" 99 (by decide)

/-- C4 counterexample: after one `personal` save followed by 100
`reminder` saves, the `personal` index still holds id 0 while no ledger
record has id 0 — the indexed record was evicted. -/
theorem indexDanglingId_counterexample :
    0 ∈ getIndex (saveFold evictionInputs) "personal" ∧
    ∀ e ∈ (saveFold evictionInputs).ledger, e.id ≠ 0 := by decide

/-! ## Lemmas about retrieval -/

theorem collectByIds_append_skip (pre rest : List (MemoryEntry α))
    (ids : List Nat) (limit now : Nat) (db : Option Nat)
    (acc : List (RetrievedMemory α)) (h : ∀ e ∈ pre, e.id ∉ ids) :
    collectByIds (pre ++ rest) ids limit now db acc =
      collectByIds rest ids limit now db acc := by
  induction pre with
  | nil => rfl
  | cons e pre ih =>
    have he : e.id ∉ ids := h e (by simp)
    rw [List.cons_append]
    conv_lhs => rw [collectByIds]
    rw [if_neg he]
    exact ih fun e' he' => h e' (by simp [he'])

theorem collectByIds_ok_mem (entries : List (MemoryEntry α)) (ids : List Nat)
    (limit now : Nat) (db : Option Nat) (acc l : List (RetrievedMemory α))
    (h : collectByIds entries ids limit now db acc = .ok l) :
    ∀ r ∈ l, r ∈ acc ∨ ∃ e ∈ entries, e.id = r.id ∧ e.content = .ok r.content := by
  induction entries generalizing acc with
  | nil =>
    unfold collectByIds at h
    cases h
    exact fun r hr => .inl hr
  | cons e rest ih =>
    unfold collectByIds at h
    by_cases h1 : e.id ∈ ids
    · rw [if_pos h1] at h
      by_cases h2 : skippedByTimeFilter e.createdAt now db = true
      · rw [if_pos h2] at h
        intro r hr
        rcases ih acc h r hr with hacc | ⟨e', he', h3, h4⟩
        · exact .inl hacc
        · exact .inr ⟨e', by simp [he'], h3, h4⟩
      · rw [if_neg h2] at h
        cases hc : e.content with
        | corrupt => rw [hc] at h; cases h
        | ok p =>
          rw [hc] at h
          simp only [deserialize] at h
          by_cases h3 : limit ≤ (acc ++ [(⟨e.id, e.type, p, e.createdAt⟩ : RetrievedMemory α)]).length
          · rw [if_pos h3] at h
            cases h
            intro r hr
            rcases List.mem_append.mp hr with hacc | hnew
            · exact .inl hacc
            · rcases List.mem_singleton.mp hnew with rfl
              exact .inr ⟨e, by simp, rfl, hc⟩
          · rw [if_neg h3] at h
            intro r hr
            rcases ih _ h r hr with hacc | ⟨e', he', h4, h5⟩
            · rcases List.mem_append.mp hacc with hacc' | hnew
              · exact .inl hacc'
              · rcases List.mem_singleton.mp hnew with rfl
                exact .inr ⟨e, by simp, rfl, hc⟩
            · exact .inr ⟨e', by simp [he'], h4, h5⟩
    · rw [if_neg h1] at h
      intro r hr
      rcases ih acc h r hr with hacc | ⟨e', he', h3, h4⟩
      · exact .inl hacc
      · exact .inr ⟨e', by simp [he'], h3, h4⟩

theorem collectRecent_ok_mem (entries : List (MemoryEntry α))
    (limit now : Nat) (db : Option Nat) (acc l : List (RetrievedMemory α))
    (h : collectRecent entries limit now db acc = .ok l) :
    ∀ r ∈ l, r ∈ acc ∨ ∃ e ∈ entries, e.id = r.id ∧ e.content = .ok r.content := by
  induction entries generalizing acc with
  | nil =>
    unfold collectRecent at h
    cases h
    exact fun r hr => .inl hr
  | cons e rest ih =>
    unfold collectRecent at h
    by_cases h2 : skippedByTimeFilter e.createdAt now db = true
    · rw [if_pos h2] at h
      intro r hr
      rcases ih acc h r hr with hacc | ⟨e', he', h3, h4⟩
      · exact .inl hacc
      · exact .inr ⟨e', by simp [he'], h3, h4⟩
    · rw [if_neg h2] at h
      cases hc : e.content with
      | corrupt => rw [hc] at h; cases h
      | ok p =>
        rw [hc] at h
        simp only [deserialize] at h
        by_cases h3 : limit ≤ (acc ++ [(⟨e.id, e.type, p, e.createdAt⟩ : RetrievedMemory α)]).length
        · rw [if_pos h3] at h
          cases h
          intro r hr
          rcases List.mem_append.mp hr with hacc | hnew
          · exact .inl hacc
          · rcases List.mem_singleton.mp hnew with rfl
            exact .inr ⟨e, by simp, rfl, hc⟩
        · rw [if_neg h3] at h
          intro r hr
          rcases ih _ h r hr with hacc | ⟨e', he', h4, h5⟩
          · rcases List.mem_append.mp hacc with hacc' | hnew
            · exact .inl hacc'
            · rcases List.mem_singleton.mp hnew with rfl
              exact .inr ⟨e, by simp, rfl, hc⟩
          · exact .inr ⟨e', by simp [he'], h4, h5⟩

theorem takeLast_append_singleton (l : List α) (a : α) {n : Nat} (h : 1 ≤ n) :
    takeLast (l ++ [a]) n = takeLast l (n - 1) ++ [a] := by
  unfold takeLast
  rw [List.drop_append_eq_append_drop]
  have h1 : (l ++ [a]).length - n = l.length - (n - 1) := by simp; omega
  rw [h1]
  have h2 : l.length - (n - 1) - l.length = 0 := by omega
  rw [h2]
  rfl

/-- C2: for every valid `(owner, type, payload)`, `Save` followed by
`Retrieve(owner, type, limit=1)` returns exactly the just-saved record,
its payload equal to the payload passed to `Save`.  The `hid` hypothesis
is the id-freshness invariant every real state satisfies (`uuid4` ids
never collide; in the model, ledger ids are below the counter). -/
theorem saveThenRetrieveRoundtrip (s : MemoryStore α) (t : String) (p : α)
    (now now' : Nat) (ht : t ∈ MEMORY_TYPES)
    (hid : ∀ e ∈ s.ledger, e.id < s.nextId) :
    ∃ s' memoryId,
      save_long_term_memory s t p now = .ok (s', memoryId) ∧
      retrieve_long_term_memories s' (some t) 1 now' none =
        .ok [{ id := memoryId, type := t, content := p, createdAt := now }] := by
  have hsave : save_long_term_memory s t p now = .ok
      ({ ledger := takeLast (s.ledger ++
            [{ id := s.nextId, type := t, content := .ok p,
               createdAt := now, updatedAt := now }]) 100,
         index := setIndex s.index t (takeLast (getIndex s t ++ [s.nextId]) 50),
         nextId := s.nextId + 1 }, s.nextId) := by
    simp [save_long_term_memory, ht]
  refine ⟨_, s.nextId, hsave, ?_⟩
  simp only [retrieve_long_term_memories]
  rw [if_pos ht]
  have hidx : getIndex
      { ledger := takeLast (s.ledger ++
            [{ id := s.nextId, type := t, content := .ok p,
               createdAt := now, updatedAt := now }]) 100,
        index := setIndex s.index t (takeLast (getIndex s t ++ [s.nextId]) 50),
        nextId := s.nextId + 1 } t =
      takeLast (getIndex s t ++ [s.nextId]) 50 := by
    simp [getIndex, lookup_setIndex_self]
  rw [hidx]
  have hids : lrangeLast (takeLast (getIndex s t ++ [s.nextId]) 50) 1 = [s.nextId] := by
    unfold lrangeLast
    rw [if_neg (by decide : (1 : Nat) ≠ 0), takeLast_takeLast]
    exact takeLast_concat_one _ _
  rw [hids]
  rw [if_neg (by simp)]
  have hledger : takeLast (s.ledger ++
      [{ id := s.nextId, type := t, content := .ok p,
         createdAt := now, updatedAt := now } ]) 100 =
      takeLast s.ledger 99 ++
        [{ id := s.nextId, type := t, content := .ok p,
           createdAt := now, updatedAt := now }] :=
    takeLast_append_singleton _ _ (by omega)
  rw [hledger]
  rw [collectByIds_append_skip _ _ _ _ _ _ _ (by
    intro e he hmem
    have : e.id < s.nextId := hid e (takeLast_subset _ _ he)
    rcases List.mem_singleton.mp hmem with h
    omega)]
  simp [collectByIds, skippedByTimeFilter, deserialize]

/-- Witness for C2 at a concrete save on the empty store. -/
theorem saveThenRetrieveRoundtrip_witness :
    ∃ s' memoryId,
      save_long_term_memory (MemoryStore.empty (α := Nat)) "personal" 42 3 =
        .ok (s', memoryId) ∧
      retrieve_long_term_memories s' (some "personal") 1 9 none =
        .ok [{ id := memoryId, type := "personal", content := 42, createdAt := 3 }] :=
  saveThenRetrieveRoundtrip MemoryStore.empty "personal" 42 3 9 (by decide) (by decide)

/-- C3 (amended): `Retrieve` never returns a record whose payload failed
to deserialize — every returned record's payload comes from a stored
cell that parsed — but a corrupt matching record is not skipped: it
aborts the whole call with `MemoryError` instead of letting the
remaining records through (see the counterexample). -/
theorem retrieveNeverReturnsCorrupt (s : MemoryStore α) (mt : Option String)
    (limit now : Nat) (db : Option Nat) (l : List (RetrievedMemory α))
    (h : retrieve_long_term_memories s mt limit now db = .ok l) :
    ∀ r ∈ l, ∃ e ∈ s.ledger, e.id = r.id ∧ e.content = .ok r.content := by
  intro r hr
  cases mt with
  | none =>
    simp only [retrieve_long_term_memories] at h
    rcases collectRecent_ok_mem _ _ _ _ _ _ h r hr with hacc | ⟨e, he, h1, h2⟩
    · simp at hacc
    · exact ⟨e, lrangeLast_subset _ _ he, h1, h2⟩
  | some t =>
    simp only [retrieve_long_term_memories] at h
    by_cases ht : t ∈ MEMORY_TYPES
    · rw [if_pos ht] at h
      by_cases hids : lrangeLast (getIndex s t) limit = []
      · rw [if_pos hids] at h
        cases h
        simp at hr
      · rw [if_neg hids] at h
        rcases collectByIds_ok_mem _ _ _ _ _ _ _ h r hr with hacc | ⟨e, he, h1, h2⟩
        · simp at hacc
        · exact ⟨e, he, h1, h2⟩
    · rw [if_neg ht] at h
      cases h
      simp at hr

/-- Witness for the amended C3 on a concrete well-formed store. -/
theorem retrieveNeverReturnsCorrupt_witness :
    ∃ e ∈ cleanStore.ledger, e.id = 0 ∧ e.content = .ok 7 :=
  retrieveNeverReturnsCorrupt cleanStore (some "personal") 10 0 none
    [{ id := 0, type := "personal", content := 7, createdAt := 0 }]
    rfl { id := 0, type := "personal", content := 7, createdAt := 0 } (by decide)

/-- C3 counterexample: with a corrupt record ahead of a well-formed one
(both indexed), `Retrieve` does not skip the corrupt record and return
the good one — the whole call fails with `MemoryError`. -/
theorem corruptAbortsRetrieve_counterexample :
    (⟨1, "personal", .ok 7, 0, 0⟩ : MemoryEntry Nat) ∈ corruptStore.ledger ∧
    retrieve_long_term_memories corruptStore (some "personal") 10 0 none =
      .error "Failed to retrieve memories: content deserialization failed" :=
  ⟨by decide, rfl⟩

/-! ## Rate-engine lemmas -/

theorem pyRound_intCast (n : ℤ) : pyRound ((n : ℚ)) = n := by
  unfold pyRound
  rw [Int.floor_intCast]
  norm_num

theorem round2_eq_of_mul_hundred (q : ℚ) (n : ℤ) (h : q * 100 = (n : ℚ)) :
    round2 q = (n : ℚ) / 100 := by
  rw [round2, h, pyRound_intCast]

theorem round2_ge_one {q : ℚ} (h : 1 ≤ q) : 1 ≤ round2 q := by
  have hf : (100 : ℤ) ≤ ⌊q * 100⌋ := by
    rw [Int.le_floor]
    push_cast
    linarith
  have hp : (100 : ℤ) ≤ pyRound (q * 100) := by
    unfold pyRound
    split
    · omega
    split
    · omega
    split <;> omega
  rw [round2, le_div_iff₀ (by norm_num : (0:ℚ) < 100)]
  have : ((100 : ℤ) : ℚ) ≤ ((pyRound (q * 100) : ℤ) : ℚ) := by
    exact_mod_cast hp
  push_cast at this
  linarith

theorem round2_pos {q : ℚ} (h : 1 ≤ q) : 0 < round2 q :=
  lt_of_lt_of_le zero_lt_one (round2_ge_one h)

theorem le_pymax_right (a b : ℚ) : b ≤ pymax a b := by
  unfold pymax
  split
  · exact le_refl b
  · exact le_of_not_lt (by assumption)

theorem pymax_pos {a b : ℚ} (hb : 0 < b) : 0 < pymax a b :=
  lt_of_lt_of_le hb (le_pymax_right a b)

theorem pymax_eq_of_not_lt {a b : ℚ} (h : ¬ a < b) : pymax a b = a := if_neg h

theorem pymax_eq_of_lt {a b : ℚ} (h : a < b) : pymax a b = b := if_pos h

/-- The snapshot `calculate_rates` publishes once every anchor guard has
passed, spelled out field by field. -/
theorem calculate_rates_eq_some (a b c d e : ℚ)
    (ha : a ≠ 0) (hb : b ≠ 0) (hc : c ≠ 0) (hd : d ≠ 0) (he : e ≠ 0) :
    calculate_rates a b c d e = some
      { xaf_usd := pymax (round2 (a * (1 + 8/100))) (1209/2)
        xaf_usdt := pymax (round2 (a * (1 + (17/2)/100))) (1209/2)
        xaf_aed := round2 (b * a * (1 + (17/2)/100))
        xaf_cny := round2 ((1 / d) * a * (1 + (19/2)/100))
        xaf_eur := round2 ((1 / e) * a * (1 + 7/100))
        xof_usd := round2 (c * (1 + 4/100))
        xof_usdt := round2 (c * (1 + 4/100))
        xof_aed := round2 (b * c * (1 + 4/100))
        xof_cny := round2 ((1 / d) * c * (1 + 5/100))
        xof_eur := round2 ((1 / e) * c * (1 + 4/100)) } := by
  unfold calculate_rates
  rw [if_neg ha, if_neg hb, if_neg hc, if_neg hd, if_neg he]

/-! ## Rate-engine theorems -/

/-- C5 (amended): when every remote source for every anchor fails, the
engine does not signal unavailability — each fetcher silently returns
its static fallback constant and `calculate_rates` still publishes a
snapshot, all ten of whose rates are strictly positive (never
zero/null).  The `return False` unavailability path fires only when a
fetched anchor value is falsy, which the static constants prevent. -/
theorem allSourcesFailedStillPublishes (src : RateSources) (h : src.allFailed) :
    ∃ snap, calculate_rates_from_sources src = some snap ∧ snap.allPositive := by
  rw [RateSources.allFailed] at h
  subst h
  have e1 : calculate_rates_from_sources
      ⟨none, none, none, none, none, none, none, none, none, none⟩ =
      calculate_rates 558 (34/125) 558 (357/50) (429/500) := rfl
  rw [e1, calculate_rates_eq_some 558 (34/125) 558 (357/50) (429/500)
    (by norm_num) (by norm_num) (by norm_num) (by norm_num) (by norm_num)]
  refine ⟨_, rfl, ?_⟩
  rw [RateSnapshot.allPositive]
  refine ⟨pymax_pos (by norm_num), pymax_pos (by norm_num),
    round2_pos (by norm_num), round2_pos (by norm_num), round2_pos (by norm_num),
    round2_pos (by norm_num), round2_pos (by norm_num), round2_pos (by norm_num),
    round2_pos (by norm_num), round2_pos (by norm_num)⟩

/-- Witness for the amended C5 at the all-sources-down input. -/
theorem allSourcesFailedStillPublishes_witness :
    ∃ snap, calculate_rates_from_sources sourcesAllFailed = some snap ∧
      snap.allPositive :=
  allSourcesFailedStillPublishes sourcesAllFailed rfl

/-- C5 counterexample: with every source for the required USD→XAF anchor
(and every other anchor) failed, the engine publishes a snapshot instead
of signalling `RateUnavailable`; the USD→XAF fetcher silently returned
the static constant 558. -/
theorem noRateUnavailableSignal_counterexample :
    calculate_rates_from_sources sourcesAllFailed ≠ none ∧
    get_usd_xaf_rate none none = 558 := by
  refine ⟨?_, rfl⟩
  show calculate_rates 558 (34/125) 558 (357/50) (429/500) ≠ none
  rw [calculate_rates_eq_some 558 (34/125) 558 (357/50) (429/500)
    (by norm_num) (by norm_num) (by norm_num) (by norm_num) (by norm_num)]
  simp

/-- C6 (amended): each published floored pair equals
`max(round(raw × (1 + markup/100), 2), 604.5)`, hence is never below the
floor; a raw 590 with the 8% USD markup prices at 637.2, already above
the floor (the spec example's 604.5 is wrong there), while a raw 550
prices at 594 and is floored to 604.5. -/
theorem rateMarkupAndFloor (a b c d e : ℚ)
    (ha : a ≠ 0) (hb : b ≠ 0) (hc : c ≠ 0) (hd : d ≠ 0) (he : e ≠ 0) :
    ∃ snap, calculate_rates a b c d e = some snap ∧
      snap.xaf_usd = pymax (round2 (a * (1 + 8/100))) (1209/2) ∧
      snap.xaf_usdt = pymax (round2 (a * (1 + (17/2)/100))) (1209/2) ∧
      (1209/2 : ℚ) ≤ snap.xaf_usd ∧ (1209/2 : ℚ) ≤ snap.xaf_usdt ∧
      (calculate_rates 550 1 1 1 1).map RateSnapshot.xaf_usd = some (1209/2) := by
  rw [calculate_rates_eq_some a b c d e ha hb hc hd he]
  refine ⟨_, rfl, rfl, rfl, le_pymax_right _ _, le_pymax_right _ _, ?_⟩
  rw [calculate_rates_eq_some 550 1 1 1 1
    (by norm_num) (by norm_num) (by norm_num) (by norm_num) (by norm_num)]
  rw [Option.map_some']
  have h594 : round2 ((550 : ℚ) * (1 + 8/100)) = 594 := by
    rw [round2_eq_of_mul_hundred _ 59400 (by norm_num)]
    norm_num
  show some (pymax (round2 ((550 : ℚ) * (1 + 8/100))) (1209/2)) = some (1209/2)
  rw [h594, pymax_eq_of_lt (by norm_num)]

/-- Witness for the amended C6 at concrete nonzero anchors. -/
theorem rateMarkupAndFloor_witness :
    ∃ snap, calculate_rates 590 1 1 1 1 = some snap ∧
      snap.xaf_usd = pymax (round2 (590 * (1 + 8/100))) (1209/2) ∧
      snap.xaf_usdt = pymax (round2 (590 * (1 + (17/2)/100))) (1209/2) ∧
      (1209/2 : ℚ) ≤ snap.xaf_usd ∧ (1209/2 : ℚ) ≤ snap.xaf_usdt ∧
      (calculate_rates 550 1 1 1 1).map RateSnapshot.xaf_usd = some (1209/2) :=
  rateMarkupAndFloor 590 1 1 1 1 (by norm_num) (by norm_num) (by norm_num)
    (by norm_num) (by norm_num)

/-- C6 counterexample: a raw USD→XAF rate of 590 with the 8% markup
publishes 637.2 = 3186/5, not the floor value 604.5 = 1209/2 the
claim's example expects (590 × 1.08 = 637.2 is already above the
floor). -/
theorem rawFiveNinety_counterexample :
    (calculate_rates 590 1 1 1 1).map RateSnapshot.xaf_usd = some (3186/5) ∧
    (3186/5 : ℚ) ≠ 1209/2 := by
  constructor
  · rw [calculate_rates_eq_some 590 1 1 1 1
      (by norm_num) (by norm_num) (by norm_num) (by norm_num) (by norm_num)]
    rw [Option.map_some']
    have h637 : round2 ((590 : ℚ) * (1 + 8/100)) = 3186/5 := by
      rw [round2_eq_of_mul_hundred _ 63720 (by norm_num)]
      norm_num
    show some (pymax (round2 ((590 : ℚ) * (1 + 8/100))) (1209/2)) = some (3186/5)
    rw [h637, pymax_eq_of_not_lt (by norm_num)]
  · norm_num

/-- C7: within one `calculate_rates` invocation every pair is computed
from the single fetch of each anchor, so the published CNY→XAF rate is
exactly the triangulation `(1 / rate(USD→CNY)) × rate(USD→XAF)` times
its markup, rounded — recomputing it from the same anchor values that
produce the snapshot's other XAF and XOF pairs reproduces the published
value. -/
theorem crossRateTriangulation (a b c d e : ℚ)
    (ha : a ≠ 0) (hb : b ≠ 0) (hc : c ≠ 0) (hd : d ≠ 0) (he : e ≠ 0) :
    ∃ snap, calculate_rates a b c d e = some snap ∧
      snap.xaf_cny = round2 ((1 / d) * a * (1 + (19/2)/100)) ∧
      snap.xof_cny = round2 ((1 / d) * c * (1 + 5/100)) ∧
      snap.xaf_usd = pymax (round2 (a * (1 + 8/100))) (1209/2) ∧
      snap.xof_usd = round2 (c * (1 + 4/100)) := by
  rw [calculate_rates_eq_some a b c d e ha hb hc hd he]
  exact ⟨_, rfl, rfl, rfl, rfl, rfl⟩

/-- Witness for C7 at concrete nonzero anchors. -/
theorem crossRateTriangulation_witness :
    ∃ snap, calculate_rates 558 (34/125) 558 (357/50) (429/500) = some snap ∧
      snap.xaf_cny = round2 ((1 / (357/50)) * 558 * (1 + (19/2)/100)) ∧
      snap.xof_cny = round2 ((1 / (357/50)) * 558 * (1 + 5/100)) ∧
      snap.xaf_usd = pymax (round2 (558 * (1 + 8/100))) (1209/2) ∧
      snap.xof_usd = round2 (558 * (1 + 4/100)) :=
  crossRateTriangulation 558 (34/125) 558 (357/50) (429/500)
    (by norm_num) (by norm_num) (by norm_num) (by norm_num) (by norm_num)

/-- C10: the published XOF_USD and XOF_USDT rates coincide — both are
`round(rate(USD→XOF) × (1 + 4/100), 2)` — even though the XAF pairs use
distinct USD (8%) and USDT (8.5%) markups. -/
theorem xofUsdEqualsXofUsdt (a b c d e : ℚ)
    (ha : a ≠ 0) (hb : b ≠ 0) (hc : c ≠ 0) (hd : d ≠ 0) (he : e ≠ 0) :
    ∃ snap, calculate_rates a b c d e = some snap ∧
      snap.xof_usd = snap.xof_usdt ∧
      snap.xof_usd = round2 (c * (1 + 4/100)) ∧
      snap.xaf_usd = pymax (round2 (a * (1 + 8/100))) (1209/2) ∧
      snap.xaf_usdt = pymax (round2 (a * (1 + (17/2)/100))) (1209/2) := by
  rw [calculate_rates_eq_some a b c d e ha hb hc hd he]
  exact ⟨_, rfl, rfl, rfl, rfl, rfl⟩

/-- Witness for C10 at concrete nonzero anchors. -/
theorem xofUsdEqualsXofUsdt_witness :
    ∃ snap, calculate_rates 600 (34/125) 590 7 (429/500) = some snap ∧
      snap.xof_usd = snap.xof_usdt ∧
      snap.xof_usd = round2 (590 * (1 + 4/100)) ∧
      snap.xaf_usd = pymax (round2 (600 * (1 + 8/100))) (1209/2) ∧
      snap.xaf_usdt = pymax (round2 (600 * (1 + (17/2)/100))) (1209/2) :=
  xofUsdEqualsXofUsdt 600 (34/125) 590 7 (429/500)
    (by norm_num) (by norm_num) (by norm_num) (by norm_num) (by norm_num)

/-! ## ActionHandler lemmas and theorems -/

theorem lookup_setAction_self (l : List (Nat × ActionTracking)) (k : Nat)
    (v : ActionTracking) : (setAction l k v).lookup k = some v := by
  induction l with
  | nil => simp [setAction, List.lookup]
  | cons p rest ih =>
    obtain ⟨k', v'⟩ := p
    by_cases h : k' = k
    · simp [setAction, h, List.lookup]
    · simp only [setAction, if_neg h, List.lookup]
      have hbe : (k == k') = false := by
        simp [beq_eq_false_iff_ne]
        exact fun hc => h hc.symm
      rw [hbe]
      exact ih

theorem updateLedger_some_ids (memoryId : Nat) (c : α) (now : Nat)
    (l l' : List (MemoryEntry α)) (h : updateLedger memoryId c now l = some l') :
    l'.map MemoryEntry.id = l.map MemoryEntry.id ∧ l'.length = l.length := by
  induction l generalizing l' with
  | nil =>
    unfold updateLedger at h
    cases h
  | cons e rest ih =>
    unfold updateLedger at h
    by_cases he : e.id = memoryId
    · rw [if_pos he] at h
      cases h
      simp
    · rw [if_neg he] at h
      cases hrec : updateLedger memoryId c now rest with
      | none => rw [hrec] at h; cases h
      | some rest' =>
        rw [hrec] at h
        cases h
        obtain ⟨h1, h2⟩ := ih rest' hrec
        simp [h1, h2]

theorem update_memory_preserves (s : MemoryStore α) (mid : Nat) (c : α) (now : Nat) :
    (update_memory s mid c now).1.ledger.map MemoryEntry.id =
      s.ledger.map MemoryEntry.id ∧
    (update_memory s mid c now).1.nextId = s.nextId ∧
    (update_memory s mid c now).1.ledger.length = s.ledger.length := by
  unfold update_memory
  cases h : updateLedger mid c now s.ledger with
  | none => exact ⟨rfl, rfl, rfl⟩
  | some l' =>
    obtain ⟨h1, h2⟩ := updateLedger_some_ids mid c now s.ledger l' h
    exact ⟨h1, rfl, h2⟩

/-- C8 (amended): when validation fails — unknown action, missing
required parameter, malformed date or time — the tracking record is
updated to `failed` with the validation error, no dispatch side effect
runs (store and sent messages unchanged), and the caller receives the
validation dict `{valid: false, error}` — which carries the error but,
unlike the post-dispatch failure dicts, has no `success` field — and
never a raw exception. -/
theorem validationFailureUniform (w : World) (phone actionName : String)
    (params : List (String × String)) (now : Nat) (gw : Except String Nat)
    (err : String) (h : validate_action actionName params = some err) :
    (execute_action w phone actionName params now gw).2 =
      { valid := some false, error := some err } ∧
    (execute_action w phone actionName params now gw).1.store = w.store ∧
    (execute_action w phone actionName params now gw).1.sent = w.sent ∧
    ((execute_action w phone actionName params now gw).1.actions).lookup w.nextActionId =
      some { id := w.nextActionId, phone := phone, actionName := actionName,
             status := "failed", error := some err, createdAt := now,
             completedAt := some now } := by
  simp only [execute_action, h]
  exact ⟨trivial, trivial, trivial, lookup_setAction_self _ _ _⟩

/-- Behaviour of the date/time validators at the inputs where a naive
model would diverge from CPython `strptime`: a three-digit year is
rejected (`%Y` is exactly four digits), a space-padded day is accepted
(`%d` allows one space plus a nonzero digit), Feb 29 follows the leap
rule, and single-digit hour/minute parse while hour 24 does not. -/
theorem validators_match_strptime :
    validDateYMD "999-12-31" = false ∧
    validDateYMD "2025-01- 5" = true ∧
    validDateYMD "2024-02-29" = true ∧
    validDateYMD "2025-02-29" = false ∧
    validTimeHM "9:5" = true ∧
    validTimeHM "24:00" = false := by decide

/-- Witness for the amended C8 at a concrete malformed date: the
three-digit year "999-12-31" fails `strptime('%Y-%m-%d')`, so the
action is failed without dispatch. -/
theorem validationFailureUniform_witness :
    (execute_action emptyWorld "user" "create_reminder"
      [("message", "Call mom"), ("date", "999-12-31")] 0 (.ok 0)).2 =
      { valid := some false,
        error := some "Invalid date format for 'date'. Use YYYY-MM-DD format." } ∧
    (execute_action emptyWorld "user" "create_reminder"
      [("message", "Call mom"), ("date", "999-12-31")] 0 (.ok 0)).1.store =
      emptyWorld.store ∧
    (execute_action emptyWorld "user" "create_reminder"
      [("message", "Call mom"), ("date", "999-12-31")] 0 (.ok 0)).1.sent =
      emptyWorld.sent ∧
    ((execute_action emptyWorld "user" "create_reminder"
      [("message", "Call mom"), ("date", "999-12-31")] 0 (.ok 0)).1.actions).lookup 0 =
      some { id := 0, phone := "user", actionName := "create_reminder",
             status := "failed",
             error := some "Invalid date format for 'date'. Use YYYY-MM-DD format.",
             createdAt := 0, completedAt := some 0 } :=
  validationFailureUniform emptyWorld "user" "create_reminder"
    [("message", "Call mom"), ("date", "999-12-31")] 0 (.ok 0)
    "Invalid date format for 'date'. Use YYYY-MM-DD format." (by decide)

/-- C8 counterexample: the result returned for a validation failure is
the validation dict — `valid = false` plus the error — with no
`success` field at all (`success = none`), not a uniform
`{success: false, ...}` object. -/
theorem validationResultLacksSuccess_counterexample :
    (execute_action emptyWorld "user" "unknown_action" [] 0 (.ok 0)).2.success = none ∧
    (execute_action emptyWorld "user" "unknown_action" [] 0 (.ok 0)).2.valid =
      some false ∧
    (execute_action emptyWorld "user" "unknown_action" [] 0 (.ok 0)).2.error =
      some "Unknown action: unknown_action" := by decide

/-- C9 (amended): `update_preference` deduplicates only against the 10
most recently indexed preference records (its `Retrieve` uses
`limit=10`).  When a preference with the same `(name, category)` pair is
among them, the existing record is updated in place — no record is
added, the ledger's ids are unchanged, and the result reports the
existing record's id.  An older matching preference outside that window
is not found and a duplicate is created (see the counterexample). -/
theorem updatePreferenceInPlace (w : World) (phone : String)
    (params : List (String × String)) (now : Nat) (gw : Except String Nat)
    (mems : List (RetrievedMemory Payload)) (mid : Nat)
    (hv : validate_action "update_preference" params = none)
    (hr : retrieve_long_term_memories w.store (some "preference") 10 now none = .ok mems)
    (hf : findMatchingPreference mems (pyLower (pyStrip (getP params "preference_name")))
            ((params.lookup "category").getD "general") = .ok (some mid)) :
    (execute_action w phone "update_preference" params now gw).2.success = some true ∧
    (execute_action w phone "update_preference" params now gw).2.memory_id = some mid ∧
    (execute_action w phone "update_preference" params now gw).1.store.ledger.map
      MemoryEntry.id = w.store.ledger.map MemoryEntry.id ∧
    (execute_action w phone "update_preference" params now gw).1.store.ledger.length =
      w.store.ledger.length ∧
    (execute_action w phone "update_preference" params now gw).1.store.nextId =
      w.store.nextId := by
  simp only [execute_action, hv, hr, hf, finishOk]
  obtain ⟨h1, h2, h3⟩ := update_memory_preserves w.store mid
    (Payload.preference (pyLower (pyStrip (getP params "preference_name")))
      (getP params "preference_value") ((params.lookup "category").getD "general")) now
  exact ⟨rfl, rfl, h1, h3, h2⟩

/-- Witness for the amended C9: one stored preference, updated in
place. -/
theorem updatePreferenceInPlace_witness :
    (execute_action onePrefWorld "u" "update_preference"
      [("preference_name", "a"), ("preference_value", "x")] 1 (.ok 0)).2.success =
      some true ∧
    (execute_action onePrefWorld "u" "update_preference"
      [("preference_name", "a"), ("preference_value", "x")] 1 (.ok 0)).2.memory_id =
      some 0 ∧
    (execute_action onePrefWorld "u" "update_preference"
      [("preference_name", "a"), ("preference_value", "x")] 1 (.ok 0)).1.store.ledger.map
      MemoryEntry.id = onePrefWorld.store.ledger.map MemoryEntry.id ∧
    (execute_action onePrefWorld "u" "update_preference"
      [("preference_name", "a"), ("preference_value", "x")] 1 (.ok 0)).1.store.ledger.length =
      onePrefWorld.store.ledger.length ∧
    (execute_action onePrefWorld "u" "update_preference"
      [("preference_name", "a"), ("preference_value", "x")] 1 (.ok 0)).1.store.nextId =
      onePrefWorld.store.nextId :=
  updatePreferenceInPlace onePrefWorld "u"
    [("preference_name", "a"), ("preference_value", "x")] 1 (.ok 0)
    [{ id := 0, type := "preference",
       content := .preference "a" "v" "general", createdAt := 0 }] 0
    (by decide) rfl rfl

/-- C9 counterexample: with eleven stored preferences whose oldest is
`("a", "general")`, asking `update_preference` for `("a", "general")`
creates a second record for the same pair — the match sits outside the
10-record lookback, so it is not updated in place. -/
theorem duplicatePreference_counterexample :
    countPref elevenPrefWorld.store.ledger "a" "general" = 1 ∧
    countPref elevenPrefWorldAfter.store.ledger "a" "general" = 2 := by decide

end WhatsappBot
